import Mathlib

/-!
Verification of the Shopify "shop by specs" collection engine
(`web/collection-generator.js`, `web/index.js`).

The JavaScript source is shallowly embedded: JS objects whose keys are
dynamic become association lists `List (String × String)` in insertion
order, JS `undefined`/`""` falsiness becomes the empty string, fallible
values become `Option`, and the `Array.prototype.sort` calls (all made
with consistent comparators on the inputs the theorems talk about) are
modelled by the stable `List.insertionSort`.
-/

namespace ShopBySpecs

/-- JS truthiness for strings: only the empty string is falsy. -/
def truthy (s : String) : Bool := s ≠ ""

/-- ASCII lowercasing, `s.toLowerCase()` from JS, written on the
character list so that it evaluates inside the kernel. -/
def jsToLower (s : String) : String := ⟨s.data.map Char.toLower⟩

/-- `s.includes(c)` from JS. -/
def jsContains (s : String) (c : Char) : Bool := s.data.contains c

/-- `s.split('/').pop()` from JS: the suffix after the last `/` (the
whole string when there is no `/`). -/
def splitPop (s : String) : String :=
  ⟨(s.data.reverse.takeWhile (fun c => ¬ c = '/')).reverse⟩

/-! ### `extractProductAttributes` (collection-generator.js lines 17–45) -/

/-- The relevant fields of a Shopify product object: `vendor`,
`productType` / `product_type` (two accepted spellings, `""` models an
absent field) and the metafield key/value list. -/
structure Product where
  vendor : String := ""
  productType : String := ""
  product_type : String := ""
  metafields : List (String × String) := []
deriving DecidableEq, Repr

/-- The attribute object built by `extractProductAttributes`.  The JS
object starts with keys `condition, vendor, product_type, size,
fuel_type`; the `size_item` key is only ever created by the metafield
loop.  An absent key and an empty string are observationally equal
downstream (only truthiness and truthy-guarded reads occur), so the
missing key is modelled as `""`. -/
structure Attrs where
  condition : String := ""
  vendor : String := ""
  product_type : String := ""
  size : String := ""
  size_item : String := ""
  fuel_type : String := ""
deriving DecidableEq, Repr

/-- One iteration of the `product.metafields.forEach` loop in
`extractProductAttributes`. -/
def applyMetafield (a : Attrs) (kv : String × String) : Attrs :=
  let key := kv.1
  let value := kv.2
  if key = "Condition" ∨ (jsToLower key) = "condition" then
    { a with condition := value }
  else if key = "size_item" ∨ (jsToLower key) = "size" then
    { a with size_item := value }
  else if key = "fuel_type" then
    { a with fuel_type := value }
  else a

/-- `extractProductAttributes(product)` (lines 17–45). -/
def extractProductAttributes (p : Product) : Attrs :=
  p.metafields.foldl applyMetafield
    { condition := ""
      vendor := p.vendor
      product_type := if truthy p.productType then p.productType else p.product_type
      size := ""
      size_item := ""
      fuel_type := "" }

/-! ### `generateAttributeCombinations` (lines 52–103) -/

/-- `PRODUCT_ATTRIBUTES` (lines 4–10). -/
def PRODUCT_ATTRIBUTES : List String :=
  ["condition", "vendor", "product_type", "size_item", "fuel_type"]

/-- `REQUIRED_ATTRIBUTES` (line 66). -/
def REQUIRED_ATTRIBUTES : List String := ["product_type"]

/-- `OPTIONAL_ATTRIBUTES` (lines 67–69). -/
def OPTIONAL_ATTRIBUTES : List String :=
  PRODUCT_ATTRIBUTES.filter (fun attr => ¬ REQUIRED_ATTRIBUTES.contains attr)

/-- Dynamic property read `attributes[name]` on the attribute object. -/
def attrValue (a : Attrs) (name : String) : String :=
  if name = "condition" then a.condition
  else if name = "vendor" then a.vendor
  else if name = "product_type" then a.product_type
  else if name = "size" then a.size
  else if name = "size_item" then a.size_item
  else if name = "fuel_type" then a.fuel_type
  else ""

/-- The optional entries added to the combination for bit pattern `i`
(lines 86–94): optional attribute `j` is added when bit `j` of `i` is
set (`bitMask & 1` with `bitMask = i >> j`) and its value is truthy. -/
def optionalPart (a : Attrs) (i : Nat) : List (String × String) :=
  (List.range OPTIONAL_ATTRIBUTES.length).filterMap (fun j =>
    if i.testBit j then
      if truthy (attrValue a (OPTIONAL_ATTRIBUTES.getD j "")) then
        some (OPTIONAL_ATTRIBUTES.getD j "",
              attrValue a (OPTIONAL_ATTRIBUTES.getD j ""))
      else none
    else none)

/-- The combination object built for bit pattern `i` (lines 77–94):
required attributes first, then the optional entries.  JS object keys
are pairwise distinct here, so insertion order as an association list is
exact. -/
def comboFor (a : Attrs) (i : Nat) : List (String × String) :=
  (REQUIRED_ATTRIBUTES.map (fun reqAttr => (reqAttr, attrValue a reqAttr)))
    ++ optionalPart a i

/-- The loop of lines 76–100 over the already-extracted attributes:
keep `comboFor a i` when it has more keys than the required attributes
alone, or when `i = 0`. -/
def generateFromAttributes (a : Attrs) : List (List (String × String)) :=
  if ¬ truthy a.product_type then []
  else
    (List.range (2 ^ OPTIONAL_ATTRIBUTES.length)).filterMap (fun i =>
      if REQUIRED_ATTRIBUTES.length < (comboFor a i).length ∨ i = 0 then
        some (comboFor a i)
      else none)

/-- `generateAttributeCombinations(product)` (lines 52–103). -/
def generateAttributeCombinations (p : Product) : List (List (String × String)) :=
  generateFromAttributes (extractProductAttributes p)

/-- Number of non-empty optional attributes among the four tracked
(`condition`, `vendor`, `size_item`, `fuel_type`). -/
def optCount (a : Attrs) : Nat :=
  (OPTIONAL_ATTRIBUTES.filter (fun n => truthy (attrValue a n))).length

/-! ### Smart-collection rules and `doesSimilarCollectionExist`
(lines 212–236) -/

/-- A smart-collection rule in the flat (REST) shape. -/
structure Rule where
  column : String := ""
  relation : String := ""
  condition : String := ""
  condition_object_id : Option String := none
deriving DecidableEq, Repr

/-- The `conditionObject.metafieldDefinition` payload of a GraphQL rule.
The JS code checks `rule.conditionObject && rule.conditionObject.
metafieldDefinition`; the two-level presence check is collapsed into one
`Option`. -/
structure MetafieldDef where
  id : String := ""
  key : String := ""
deriving DecidableEq, Repr

/-- A smart-collection rule in the GraphQL (`ruleSet`) shape: uppercase
column/relation tokens and a condition object for metafield rules. -/
structure GRule where
  column : String := ""
  relation : String := ""
  condition : String := ""
  conditionObject : Option MetafieldDef := none
deriving DecidableEq, Repr

/-- The fields of an existing collection that the embedded functions
read.  `id` is numeric (the JS `parseInt(id)` on a REST id),
`created_at` is the parsed timestamp (`new Date(...)` value), and
`firstProductImage` is the image URL reachable through
`products.edges[0].node.featuredMedia.preview.image.url`. -/
structure Collection where
  id : Int := 0
  title : String := ""
  handle : String := ""
  rules : Option (List Rule) := none
  ruleSet : Option (List GRule) := none
  created_at : Option Int := none
  image : Option String := none
  firstProductImage : Option String := none
deriving DecidableEq, Repr

/-- The per-rule match of lines 220–229. -/
def ruleMatches (newRule existingRule : Rule) : Bool :=
  existingRule.column == newRule.column
    && existingRule.relation == newRule.relation
    && existingRule.condition == newRule.condition
    && (!(newRule.column == "product_metafield_definition")
        || existingRule.condition_object_id == newRule.condition_object_id)

/-- The body of the `for` loop of `doesSimilarCollectionExist` for one
existing collection: skip when `rules` is absent, require equal length,
and require every candidate rule to match some existing rule. -/
def collectionMatches (rules : List Rule) (collection : Collection) : Bool :=
  match collection.rules with
  | none => false
  | some existingRules =>
    existingRules.length == rules.length
      && rules.all (fun newRule =>
          existingRules.any (fun existingRule => ruleMatches newRule existingRule))

/-- `doesSimilarCollectionExist(rules, existingCollections)`
(lines 212–236). -/
def doesSimilarCollectionExist (rules : List Rule)
    (existingCollections : List Collection) : Bool :=
  existingCollections.any (collectionMatches rules)

/-! ### `parseCollectionAttributes` (lines 689–788) -/

/-- The attribute object built by `parseCollectionAttributes`
(initialized with the five keys, all empty). -/
structure CollAttrs where
  product_type : String := ""
  vendor : String := ""
  condition : String := ""
  size_item : String := ""
  fuel_type : String := ""
deriving DecidableEq, Repr

/-- Dynamic write `attributes[attributeKey] = value`.  A key other than
the five is a fresh property on the JS object that nothing ever reads
back, so it is modelled as a no-op. -/
def setAttr (a : CollAttrs) (k v : String) : CollAttrs :=
  if k = "product_type" then { a with product_type := v }
  else if k = "vendor" then { a with vendor := v }
  else if k = "condition" then { a with condition := v }
  else if k = "size_item" then { a with size_item := v }
  else if k = "fuel_type" then { a with fuel_type := v }
  else a

/-- The `definitionIdToAttribute` reverse index (lines 707–710): the
map from definition id to attribute name, built by iterating
`Object.entries(metafieldDefinitions)` in insertion order, later writes
overwriting earlier ones — i.e. the last entry with the given id wins. -/
def revLookup (defs : List (String × String)) (definitionId : String) :
    Option String :=
  (defs.reverse.find? (fun p => p.2 = definitionId)).map (·.1)

/-- JS `\w`: ASCII letters, digits and underscore. -/
def isWordChar (c : Char) : Bool := c.isAlpha || c.isDigit || c == '_'

/-- Is `w` a whole-word occurrence starting at index `i` of `s`
(`\bw\b` anchored at `i`)? -/
def matchesWordAt (s w : List Char) (i : Nat) : Bool :=
  w.isPrefixOf (s.drop i)
    && (i == 0 || !(isWordChar (s.getD (i - 1) ' ')))
    && (decide (s.length ≤ i + w.length)
        || !(isWordChar (s.getD (i + w.length) ' ')))

/-- `\bw\b` matches somewhere in `s`. -/
def containsWord (s : String) (w : String) : Bool :=
  (List.range (s.length + 1)).any (fun i => matchesWordAt s.data w.data i)

/-- The test `/\b(used|new|refurbished)\b/` (line 776). -/
def conditionPattern (s : String) : Bool :=
  ["used", "new", "refurbished"].any (fun w => containsWord s w)

/-- The test `/(\d+['"]|\d+ft|\d+-\d+|feet|\d+')/` (line 778): it
matches iff `s` contains `feet`, or some digit is immediately followed
by `'`, `"`, `ft`, or `-` and a digit (an alternative starting with
`\d+` matches somewhere iff it matches with a single digit). -/
def sizePattern (s : String) : Bool :=
  (List.range (s.data.length + 1)).any
      (fun i => "feet".data.isPrefixOf (s.data.drop i))
    || (List.range s.data.length).any (fun j =>
        match s.data[j]?, s.data[j + 1]? with
        | some c, some d =>
            c.isDigit && (d == '\'' || d == '"'
              || (d == 'f' && s.data[j + 2]? == some 't')
              || (d == '-' && ((s.data[j + 2]?).map Char.isDigit).getD false))
        | _, _ => false)

/-- The test `/\b(electric|diesel|gas|hybrid|propane)\b/` (line 780). -/
def fuelPattern (s : String) : Bool :=
  ["electric", "diesel", "gas", "hybrid", "propane"].any
    (fun w => containsWord s w)

/-- Lines 753–764: map a metafield definition key to an internal
attribute name after lowercasing (the `'Condition'` comparison is dead
after the lowercasing; it is kept as in the source). -/
def keyAlias (rawKey : String) : Option String :=
  if (jsToLower rawKey) = "condition" ∨ (jsToLower rawKey) = "Condition" then
    some "condition"
  else if (jsToLower rawKey) = "size_item" ∨ (jsToLower rawKey) = "size" then
    some "size_item"
  else if (jsToLower rawKey) = "fuel_type" then some "fuel_type"
  else none

/-- Lines 773–782: heuristic pattern matching on the lowercased
condition string, assigning the original-cased condition value. -/
def patternFallback (a : CollAttrs) (ruleCondition : String) : CollAttrs :=
  if conditionPattern (jsToLower ruleCondition) then
    { a with condition := ruleCondition }
  else if sizePattern (jsToLower ruleCondition) then
    { a with size_item := ruleCondition }
  else if fuelPattern (jsToLower ruleCondition) then
    { a with fuel_type := ruleCondition }
  else a

/-- One REST-shape rule applied to the attribute accumulator
(lines 715–732). -/
def applyFlatRule (defs : List (String × String)) (a : CollAttrs)
    (rule : Rule) : CollAttrs :=
  if rule.column = "type" then { a with product_type := rule.condition }
  else if rule.column = "vendor" then { a with vendor := rule.condition }
  else if rule.column = "product_metafield_definition" then
    match rule.condition_object_id with
    | none => a
    | some rawId =>
      if rawId = "" then a
      else
        match revLookup defs
            (if jsContains rawId '/' then splitPop rawId else rawId) with
        | some attributeKey => setAttr a attributeKey rule.condition
        | none => a
  else a

/-- One GraphQL-shape rule applied to the attribute accumulator
(lines 735–783). -/
def applyGRule (defs : List (String × String)) (a : CollAttrs)
    (rule : GRule) : CollAttrs :=
  if (jsToLower rule.column) = "type" then
    { a with product_type := rule.condition }
  else if (jsToLower rule.column) = "vendor" then
    { a with vendor := rule.condition }
  else if (jsToLower rule.column) = "product_metafield_definition" then
    match rule.conditionObject with
    | some metafieldDef =>
      match (revLookup defs (splitPop metafieldDef.id)).orElse
          (fun _ => keyAlias metafieldDef.key) with
      | some attributeKey => setAttr a attributeKey rule.condition
      | none => patternFallback a rule.condition
    | none => patternFallback a rule.condition
  else a

/-- `parseCollectionAttributes(collection, providedMetafieldDefinitions)`
(lines 689–788), with the definitions map supplied (the
`providedMetafieldDefinitions` path; the other path only differs in
fetching the same map remotely). -/
def parseCollectionAttributes (collection : Collection)
    (defs : List (String × String)) : CollAttrs :=
  match collection.rules with
  | some rules => rules.foldl (applyFlatRule defs) {}
  | none =>
    match collection.ruleSet with
    | some rules => rules.foldl (applyGRule defs) {}
    | none => {}

/-- The flat-shape equivalent of a GraphQL-shape rule: lowercased
column and relation tokens, and the numeric tail of the definition id
as the definition reference. -/
def toFlatRule (g : GRule) : Rule :=
  { column := (jsToLower g.column)
    relation := (jsToLower g.relation)
    condition := g.condition
    condition_object_id := g.conditionObject.map (fun md => splitPop md.id) }

/-! ### `createCollectionDetails` (lines 111–204) -/

/-- `attributeOrder` (lines 117–123). -/
def attributeOrder : List String :=
  ["condition", "size_item", "vendor", "fuel_type", "product_type"]

/-- JS `Array.prototype.indexOf`: index of the first occurrence, `-1`
when absent. -/
def jsIndexOf (l : List String) (s : String) : Int :=
  match l.findIdx? (fun x => x = s) with
  | some n => (n : Int)
  | none => -1

/-- The comparator of lines 126–141 as a `compare(a,b) ≤ 0` predicate:
entries whose key is in `attributeOrder` sort by its index and precede
all other entries; entries outside the order compare equal. -/
def entryCmpLe (a b : String × String) : Bool :=
  if jsIndexOf attributeOrder a.1 ≠ -1 ∧ jsIndexOf attributeOrder b.1 ≠ -1 then
    decide (jsIndexOf attributeOrder a.1 ≤ jsIndexOf attributeOrder b.1)
  else if jsIndexOf attributeOrder a.1 ≠ -1 then true
  else if jsIndexOf attributeOrder b.1 ≠ -1 then false
  else true

/-- `attrEntries.sort(...)` (line 126): `Array.prototype.sort` with the
consistent comparator above is the stable sort. -/
def sortEntries (l : List (String × String)) : List (String × String) :=
  l.insertionSort (fun a b => entryCmpLe a b = true)

/-- JS `\s` (the whitespace class, ASCII part). -/
def jsWhitespace (c : Char) : Bool :=
  c == ' ' || c == '\t' || c == '\n' || c == '\r' || c == '\x0b' || c == '\x0c'

/-- Characters surviving `.replace(/[^\w\s-]/g, '')`. -/
def allowedHandleChar (c : Char) : Bool :=
  isWordChar c || jsWhitespace c || c == '-'

/-- `.replace(/X+/g, '-')` for a character class `p`: every maximal run
of `p`-characters becomes a single `-`. -/
def squashRuns (p : Char → Bool) : Bool → List Char → List Char
  | _, [] => []
  | inRun, c :: rest =>
    if p c then
      if inRun then squashRuns p true rest
      else '-' :: squashRuns p true rest
    else c :: squashRuns p false rest

/-- JS `String.prototype.trim`: strip whitespace from both ends. -/
def jsTrim (l : List Char) : List Char :=
  ((l.dropWhile jsWhitespace).reverse.dropWhile jsWhitespace).reverse

/-- The handle-friendly form of one attribute value (lines 152–156):
lowercase, strip the characters outside `[\w\s-]`, collapse whitespace
runs to single hyphens, collapse hyphen runs, trim. -/
def handleValue (value : String) : String :=
  ⟨jsTrim (squashRuns (fun c => c == '-') false
    (squashRuns jsWhitespace false
      ((jsToLower value).data.filter allowedHandleChar)))⟩

/-- `handleParts[attr]` (lines 147–160): the JS object written in entry
order, so the last write for a key wins. -/
def lookupLast (l : List (String × String)) (k : String) : Option String :=
  (l.reverse.find? (fun e => e.1 = k)).map (·.2)

/-- The standardized handle (lines 164–167): canonical-order keys whose
handle part is truthy, joined with hyphens. -/
def handleFromParts (parts : List (String × String)) : String :=
  String.intercalate "-" (attributeOrder.filterMap (fun attr =>
    match lookupLast parts attr with
    | some v => if truthy v then some v else none
    | none => none))

/-- JS object property read `metafieldDefinitions[attr]`. -/
def lookupDef (defs : List (String × String)) (attr : String) : Option String :=
  (defs.find? (fun e => e.1 = attr)).map (·.2)

/-- The rule produced for one sorted entry (lines 170–201): vendor and
product type map to `vendor`/`type` columns; the metafield-backed
attributes map to a `product_metafield_definition` rule only when the
definitions map has a truthy entry for them (otherwise the `switch`
falls through to `default`, returning `null`); anything else is
`null`. -/
def ruleForEntry (defs : List (String × String)) (e : String × String) :
    Option Rule :=
  if e.1 = "vendor" then
    some { column := "vendor", relation := "equals", condition := e.2 }
  else if e.1 = "product_type" then
    some { column := "type", relation := "equals", condition := e.2 }
  else if e.1 = "condition" ∨ e.1 = "fuel_type" ∨ e.1 = "size_item" then
    match lookupDef defs e.1 with
    | some definitionId =>
      if truthy definitionId then
        some { column := "product_metafield_definition", relation := "equals",
               condition := e.2, condition_object_id := some definitionId }
      else none
    | none => none
  else none

/-- The collection details record `{ title, handle, rules }`. -/
structure CollectionDetails where
  title : String := ""
  handle : String := ""
  rules : List Rule := []
deriving DecidableEq, Repr

/-- Title, handle and rules from the already-sorted truthy entries. -/
def buildDetails (sorted : List (String × String))
    (defs : List (String × String)) : CollectionDetails :=
  { title := String.intercalate " " (sorted.map (·.2))
    handle := handleFromParts (sorted.map (fun e => (e.1, handleValue e.2)))
    rules := sorted.filterMap (ruleForEntry defs) }

/-- `createCollectionDetails(combination, metafieldDefinitions)`
(lines 111–204). -/
def createCollectionDetails (combination : List (String × String))
    (defs : List (String × String)) : Option CollectionDetails :=
  if (combination.filter (fun e => truthy e.2)).isEmpty then none
  else some (buildDetails
    (sortEntries (combination.filter (fun e => truthy e.2))) defs)

/-! ### `getProductMetafieldDefinitions` (lines 347–410) -/

/-- JS object assignment `m[k] = v`: overwrite in place or append. -/
def upsert (m : List (String × String)) (k v : String) :
    List (String × String) :=
  if m.any (fun e => e.1 = k) then
    m.map (fun e => if e.1 = k then (k, v) else e)
  else m ++ [(k, v)]

/-- One definition edge `(key, id)` folded into the map
(lines 386–403): `Condition`/any-case `condition` map to `condition`,
`size_item` and `fuel_type` only on exact match, anything else is
stored under its own key; the stored value is the numeric tail of the
GraphQL id. -/
def addDefinition (m : List (String × String)) (edge : String × String) :
    List (String × String) :=
  if edge.1 = "Condition" ∨ (jsToLower edge.1) = "condition" then
    upsert m "condition" (splitPop edge.2)
  else if edge.1 = "size_item" then
    upsert m "size_item" (splitPop edge.2)
  else if edge.1 = "fuel_type" then
    upsert m "fuel_type" (splitPop edge.2)
  else
    upsert m edge.1 (splitPop edge.2)

/-- The definitions map built by `getProductMetafieldDefinitions` from
the fetched `(key, id)` edges. -/
def buildDefinitionsMap (edges : List (String × String)) :
    List (String × String) :=
  edges.foldl addDefinition []

/-! ### `getRelatedCollections` (lines 549–681) -/

/-- `getCollectionImageUrl(collection)` (lines 517–542): the direct
image URL if present, else the first product's preview image, else
null. -/
def getCollectionImageUrl (c : Collection) : Option String :=
  match c.image with
  | some url => some url
  | none => c.firstProductImage

/-- One entry `{ title, handle, image }` of a related-collections
bucket. -/
structure CollectionRef where
  title : String := ""
  handle : String := ""
  image : Option String := none
deriving DecidableEq, Repr

/-- The `related` result object (lines 572–581). -/
structure RelatedCollections where
  byCategory : List CollectionRef := []
  byManufacturer : List CollectionRef := []
  bySizeItem : List CollectionRef := []
  bySpecsCondition : List CollectionRef := []
  bySpecsFuelType : List CollectionRef := []
  parts : List CollectionRef := []
deriving DecidableEq, Repr

/-- The bucket entry pushed for one collection. -/
def refOf (c : Collection) : CollectionRef :=
  { title := c.title, handle := c.handle, image := getCollectionImageUrl c }

/-- The static parts list (lines 668–673). -/
def partsRefs : List CollectionRef :=
  [{ title := "Genie Parts", handle := "genie-parts" },
   { title := "JLG Parts", handle := "jlg-parts" },
   { title := "Skyjack Parts", handle := "skyjack-parts" },
   { title := "Haulage Parts", handle := "haulage-parts" }]

/-- `getRelatedCollections(collectionHandle)` (lines 549–681), with the
external reads supplied: `collection` is the result of
`getCollectionByHandle(collectionHandle)`, `defs` the definitions map,
`allCollections` the catalog.  The loop pushes each bucket's entries in
catalog order, which is exactly a `filterMap` per bucket. -/
def getRelatedCollections (collectionHandle : String) (collection : Collection)
    (defs : List (String × String)) (allCollections : List Collection) :
    RelatedCollections :=
  { byCategory := allCollections.filterMap (fun o =>
      if o.handle ≠ collectionHandle ∧
          (parseCollectionAttributes o defs).product_type
            = (parseCollectionAttributes collection defs).product_type then
        some (refOf o)
      else none)
    byManufacturer := allCollections.filterMap (fun o =>
      if o.handle ≠ collectionHandle ∧
          ¬ truthy (parseCollectionAttributes collection defs).vendor ∧
          truthy (parseCollectionAttributes collection defs).product_type ∧
          (parseCollectionAttributes o defs).product_type
            = (parseCollectionAttributes collection defs).product_type ∧
          truthy (parseCollectionAttributes o defs).vendor then
        some (refOf o)
      else none)
    bySizeItem := allCollections.filterMap (fun o =>
      if o.handle ≠ collectionHandle ∧
          ¬ truthy (parseCollectionAttributes collection defs).size_item ∧
          truthy (parseCollectionAttributes collection defs).product_type ∧
          (parseCollectionAttributes o defs).product_type
            = (parseCollectionAttributes collection defs).product_type ∧
          truthy (parseCollectionAttributes o defs).size_item then
        some (refOf o)
      else none)
    bySpecsCondition := allCollections.filterMap (fun o =>
      if o.handle ≠ collectionHandle ∧
          ¬ truthy (parseCollectionAttributes collection defs).condition ∧
          truthy (parseCollectionAttributes collection defs).product_type ∧
          (parseCollectionAttributes o defs).product_type
            = (parseCollectionAttributes collection defs).product_type ∧
          truthy (parseCollectionAttributes o defs).condition then
        some (refOf o)
      else none)
    bySpecsFuelType := allCollections.filterMap (fun o =>
      if o.handle ≠ collectionHandle ∧
          ¬ truthy (parseCollectionAttributes collection defs).fuel_type ∧
          truthy (parseCollectionAttributes collection defs).product_type ∧
          (parseCollectionAttributes o defs).product_type
            = (parseCollectionAttributes collection defs).product_type ∧
          truthy (parseCollectionAttributes o defs).fuel_type then
        some (refOf o)
      else none)
    parts := partsRefs }

/-! ### `cleanupDuplicateCollections` (lines 415–514) -/

/-- Lexicographic comparison of character lists. -/
def charListLt : List Char → List Char → Bool
  | [], [] => false
  | [], _ :: _ => true
  | _ :: _, [] => false
  | a :: as, b :: bs =>
    if a < b then true else if b < a then false else charListLt as bs

/-- JS `a < b` on strings: lexicographic by code unit (identical to
code-point order on the ASCII data these rules carry). -/
def jsStrLt (a b : String) : Bool := charListLt a.data b.data

/-- The rule comparator of lines 433–443 as `compare(a,b) ≤ 0`: by
column, then by condition. -/
def ruleSortLe (a b : Rule) : Bool :=
  if jsStrLt a.column b.column then true
  else if jsStrLt b.column a.column then false
  else if jsStrLt a.condition b.condition then true
  else if jsStrLt b.condition a.condition then false
  else true

/-- `column:relation:condition[:definitionReference]` (lines 446–448),
the reference appended only when truthy. -/
def ruleSig (r : Rule) : String :=
  r.column ++ ":" ++ r.relation ++ ":" ++ r.condition
    ++ (match r.condition_object_id with
        | some i => if truthy i then ":" ++ i else ""
        | none => "")

/-- The canonical signature of a rule list: the sorted rules'
signatures joined with `|`. -/
def collectionSig (rules : List Rule) : String :=
  String.intercalate "|"
    ((rules.insertionSort (fun a b => ruleSortLe a b = true)).map ruleSig)

/-- `collectionsByRules[ruleKey].push(collection)` on the JS object of
groups, which iterates in insertion order (every key contains `:`, so
no key is an array index). -/
def addToGroups (gs : List (String × List Collection)) (k : String)
    (c : Collection) : List (String × List Collection) :=
  if gs.any (fun g => g.1 = k) then
    gs.map (fun g => if g.1 = k then (g.1, g.2 ++ [c]) else g)
  else gs ++ [(k, [c])]

/-- The grouping loop of lines 427–455: collections without rules (or
with an empty rule list) are skipped. -/
def groupsBySignature (cs : List Collection) :
    List (String × List Collection) :=
  cs.foldl (fun gs c =>
    match c.rules with
    | none => gs
    | some rs => if rs.isEmpty then gs else addToGroups gs (collectionSig rs) c) []

/-- The survivor comparator of lines 468–475 as `compare(a,b) ≤ 0`:
creation time when both have one, else numeric id. -/
def collLe (a b : Collection) : Bool :=
  match a.created_at, b.created_at with
  | some ta, some tb => decide (ta ≤ tb)
  | _, _ => decide (a.id ≤ b.id)

/-- `collectionsWithSameRules.sort(...)` (line 468). -/
def sortGroup (g : List Collection) : List Collection :=
  g.insertionSort (fun a b => collLe a b = true)

/-- Comparison by creation time; on collections that all carry a
timestamp it agrees with the survivor comparator. -/
def timeLe (a b : Collection) : Prop :=
  a.created_at.getD 0 ≤ b.created_at.getD 0

instance : DecidableRel timeLe := fun a b =>
  Int.decLe (a.created_at.getD 0) (b.created_at.getD 0)

/-- The ids marked for deletion from one duplicate group
(lines 478–485): everything after the first of the sorted group. -/
def groupDeletions (g : List Collection) : List Int :=
  ((sortGroup g).drop 1).map (·.id)

/-- `collectionsToDelete` (lines 458–487): the deletion plan of
`cleanupDuplicateCollections`, before the external deletes. -/
def cleanupPlan (cs : List Collection) : List Int :=
  (groupsBySignature cs).foldl (fun acc g =>
    if 1 < g.2.length then acc ++ groupDeletions g.2 else acc) []

/-! ### The webhook entry point (`web/index.js` lines 93–136) -/

/-- The observable outcome of one webhook request: the HTTP status,
whether the handler reached the `JSON.parse` step, and the product id
pushed onto the processing queue (if any). -/
structure WebhookOutcome where
  status : Nat := 0
  bodyParsed : Bool := false
  enqueued : Option String := none
deriving DecidableEq, Repr

/-- The `POST /webhooks/products/create` handler, parametrized by the
HMAC primitive `hmacOf` (base64 HMAC-SHA256 of the raw body under the
shared secret) and the JSON parse `parsedId` (the `id` of the parsed
body, `none` when `JSON.parse` throws).  A missing signature header or
a length mismatch makes `crypto.timingSafeEqual` throw, which the inner
`catch` turns into 403; equal-length unequal buffers return `false`,
also 403.  Buffers of two strings are equal iff the strings are, so the
comparison is string equality.  A parse failure hits the outer `catch`
(500); on success the id is queued. -/
def webhookProductsCreate (hmacOf : String → String)
    (hmacHeader : Option String) (rawBody : String)
    (parsedId : String → Option String) : WebhookOutcome :=
  match hmacHeader with
  | none => { status := 403 }
  | some hmac =>
    if hmacOf rawBody = hmac then
      match parsedId rawBody with
      | some productId =>
        { status := 200, bodyParsed := true, enqueued := some productId }
      | none => { status := 500, bodyParsed := true }
    else { status := 403 }

/-- Dynamic property read `attributes[k]` on the collection-attributes
object. -/
def collAttr (a : CollAttrs) (k : String) : String :=
  if k = "product_type" then a.product_type
  else if k = "vendor" then a.vendor
  else if k = "condition" then a.condition
  else if k = "size_item" then a.size_item
  else if k = "fuel_type" then a.fuel_type
  else ""

/-- Well-formedness of a definitions map: unique attribute names,
pairwise-distinct ids, and ids that are non-empty and contain no `/`
(as the numeric ids produced by `getProductMetafieldDefinitions`
are). -/
def DefsWellFormed (defs : List (String × String)) : Prop :=
  (defs.map Prod.fst).Nodup ∧ (defs.map Prod.snd).Nodup ∧
    ∀ p ∈ defs, p.2 ≠ "" ∧ ¬ jsContains p.2 '/'

instance decDefsWellFormed (defs : List (String × String)) :
    Decidable (DefsWellFormed defs) := by
  unfold DefsWellFormed
  infer_instance

/-- The spec's concrete scenario: product with vendor `"Genie"` and
product type `"Boom Lift"`, no condition/size/fuel metadata. -/
def genieProduct : Product := { vendor := "Genie", productType := "Boom Lift" }

/-- A product annotated with a mixed-case `Fuel_Type` metafield key. -/
def fuelCasedProduct : Product :=
  { productType := "X", metafields := [("Fuel_Type", "Diesel")] }

/-- The same product with the lowercase `fuel_type` key. -/
def fuelLowerProduct : Product :=
  { productType := "X", metafields := [("fuel_type", "Diesel")] }

/-- A product annotated with a mixed-case `Size_Item` metafield key. -/
def sizeCasedProduct : Product :=
  { productType := "X", metafields := [("Size_Item", "40ft")] }


/-- Rule `vendor equals "Genie"`. -/
def ruleA : Rule := { column := "vendor", relation := "equals", condition := "Genie" }

/-- Rule `type equals "Boom Lift"`. -/
def ruleB : Rule := { column := "type", relation := "equals", condition := "Boom Lift" }

/-- An existing collection carrying `ruleB, ruleA` in that order. -/
def collBA : Collection := { rules := some [ruleB, ruleA] }

/-- Candidate rule list `type equals "Boom Lift"`. -/
def candRules : List Rule :=
  [{ column := "type", relation := "equals", condition := "Boom Lift" }]

/-- An existing collection holding `type equals "Boom Lift"` in the
flat (REST) shape. -/
def flatColl : Collection :=
  { rules := some [{ column := "type", relation := "equals",
                     condition := "Boom Lift" }] }

/-- The same collection in the GraphQL `ruleSet` shape (uppercase
tokens), with no flat `rules` list. -/
def gqlColl : Collection :=
  { ruleSet := some [{ column := "TYPE", relation := "EQUALS",
                       condition := "Boom Lift" }] }

/-- A definitions map in which two attributes share one definition id. -/
def collidingDefs : List (String × String) := [("condition", "7"), ("fuel_type", "7")]

/-- A combination using a metafield-backed attribute that is mapped in
`collidingDefs`. -/
def collidingCombo : List (String × String) :=
  [("product_type", "X"), ("condition", "Used")]

/-- First duplicate collection of the reconciler scenario. -/
def dup1 : Collection :=
  { id := 1, title := "Genie Boom Lift", rules := some [ruleA, ruleB] }

/-- Second duplicate collection: same two rules in the other order. -/
def dup2 : Collection :=
  { id := 2, title := "Genie Boom Lift 2", rules := some [ruleB, ruleA] }

/-- A target collection filtering only on product type `"Boom Lift"`. -/
def blTarget : Collection := { handle := "boom-lift", rules := some [ruleB] }

/-- Another collection with the same product type and vendor Genie. -/
def genieBL : Collection :=
  { handle := "genie-boom-lift", title := "Genie Boom Lift",
    rules := some [ruleA, ruleB] }

/-- A target that already filters on a vendor. -/
def genieTarget : Collection :=
  { handle := "genie-boom-lift", rules := some [ruleA, ruleB] }

/-- A combination for the round-trip scenario. -/
def rtCombo : List (String × String) :=
  [("product_type", "Boom Lift"), ("condition", "Used")]

/-- A well-formed definitions map for the round-trip scenario. -/
def rtDefs : List (String × String) := [("condition", "11")]

/-- What one candidate rule matching one existing rule means. -/
def RuleAgrees (nr er : Rule) : Prop :=
  er.column = nr.column ∧ er.relation = nr.relation ∧
    er.condition = nr.condition ∧
    (nr.column = "product_metafield_definition" →
      er.condition_object_id = nr.condition_object_id)

/-- Side conditions under which a GraphQL metafield rule carries a
definition id the flat path can resolve the same way. -/
def GRuleResolvable (defs : List (String × String)) (g : GRule) : Prop :=
  (jsToLower g.column) = "product_metafield_definition" →
    ∃ md, g.conditionObject = some md ∧ splitPop md.id ≠ "" ∧
      ¬ jsContains (splitPop md.id) '/' ∧
      revLookup defs (splitPop md.id) ≠ none


/-! ### Lemmas about the combination generator -/

lemma mem_comboFor (a : Attrs) (i : Nat) :
    ("product_type", a.product_type) ∈ comboFor a i := by
  simp [comboFor, REQUIRED_ATTRIBUTES, attrValue]

lemma comboFor_zero (a : Attrs) :
    comboFor a 0 = [("product_type", a.product_type)] := by
  simp +decide [comboFor, optionalPart, REQUIRED_ATTRIBUTES, attrValue]

lemma optionalPart_entry (a : Attrs) (i : Nat) {e : String × String}
    (he : e ∈ optionalPart a i) : e.1 ≠ "product_type" ∧ e.2 ≠ "" := by
  rcases List.mem_filterMap.1 he with ⟨j, hj, hfe⟩
  simp only [List.mem_range] at hj
  have hlen : OPTIONAL_ATTRIBUTES.length = 4 := by decide
  rw [hlen] at hj
  split_ifs at hfe with hbit htr
  · injection hfe with hfe
    subst hfe
    refine ⟨?_, by simpa [truthy] using htr⟩
    interval_cases j <;>
      simp [OPTIONAL_ATTRIBUTES, PRODUCT_ATTRIBUTES, REQUIRED_ATTRIBUTES]

lemma generateFromAttributes_pos {a : Attrs} (h : a.product_type ≠ "") :
    generateFromAttributes a
      = (List.range (2 ^ OPTIONAL_ATTRIBUTES.length)).filterMap (fun i =>
          if REQUIRED_ATTRIBUTES.length < (comboFor a i).length ∨ i = 0 then
            some (comboFor a i)
          else none) := by
  unfold generateFromAttributes
  rw [if_neg]
  simp [truthy, h]

lemma mem_generateFromAttributes {a : Attrs} {c : List (String × String)}
    (h : a.product_type ≠ "") (hc : c ∈ generateFromAttributes a) :
    ∃ i < 2 ^ OPTIONAL_ATTRIBUTES.length,
      c = comboFor a i ∧ (1 < c.length ∨ i = 0) := by
  rw [generateFromAttributes_pos h] at hc
  rcases List.mem_filterMap.1 hc with ⟨i, hi, hfe⟩
  simp only [List.mem_range] at hi
  split_ifs at hfe with hkeep
  injection hfe with hfe
  subst hfe
  exact ⟨i, hi, rfl, by simpa [REQUIRED_ATTRIBUTES] using hkeep⟩

set_option maxHeartbeats 3200000 in
lemma length_generateFromAttributes (a : Attrs) (h : a.product_type ≠ "") :
    (generateFromAttributes a).length = 17 - 2 ^ (4 - optCount a) := by
  by_cases h1 : a.condition = "" <;> by_cases h2 : a.vendor = "" <;>
    by_cases h3 : a.size_item = "" <;> by_cases h4 : a.fuel_type = "" <;>
    simp +decide [generateFromAttributes, comboFor, optionalPart, attrValue,
      truthy, optCount, OPTIONAL_ATTRIBUTES, REQUIRED_ATTRIBUTES,
      PRODUCT_ATTRIBUTES, List.range_succ, h, h1, h2, h3, h4]

lemma generateFromAttributes_eq_cons (a : Attrs) (h : a.product_type ≠ "") :
    ∃ rest, generateFromAttributes a
        = [("product_type", a.product_type)] :: rest
      ∧ ∀ c ∈ rest, 1 < c.length := by
  have hr : List.range (2 ^ OPTIONAL_ATTRIBUTES.length)
      = 0 :: (List.range 15).map (· + 1) := by decide
  refine ⟨((List.range 15).map (· + 1)).filterMap (fun i =>
      if REQUIRED_ATTRIBUTES.length < (comboFor a i).length ∨ i = 0 then
        some (comboFor a i) else none), ?_, ?_⟩
  · rw [generateFromAttributes_pos h, hr, List.filterMap_cons]
    simp [comboFor_zero]
  · intro c hc
    rcases List.mem_filterMap.1 hc with ⟨i, hi, hfe⟩
    rcases List.mem_map.1 hi with ⟨j, _, rfl⟩
    by_cases hkeep :
        REQUIRED_ATTRIBUTES.length < (comboFor a (j + 1)).length ∨ j + 1 = 0
    · rw [if_pos hkeep] at hfe
      injection hfe with hfe
      subst hfe
      rcases hkeep with hlen | hzero
      · simpa [REQUIRED_ATTRIBUTES] using hlen
      · exact absurd hzero (Nat.succ_ne_zero j)
    · rw [if_neg hkeep] at hfe
      cases hfe

/-- C1, counterexample: on the spec's own concrete scenario (vendor
`"Genie"`, product type `"Boom Lift"`, so `k = 1` non-empty optional
attributes), `generateAttributeCombinations` returns 9 combinations,
not `2^1 = 2`, and the returned list is not duplicate-free. -/
theorem claim_C1_counterexample :
    optCount (extractProductAttributes genieProduct) = 1
      ∧ (generateAttributeCombinations genieProduct).length = 9
      ∧ (generateAttributeCombinations genieProduct).length ≠ 2 ^ 1
      ∧ ¬ (generateAttributeCombinations genieProduct).Nodup := by
  decide

/-- C1 (amended): for every product whose extracted attribute set has a
non-empty `product_type`, `generateAttributeCombinations` returns
exactly `17 - 2^(4-k)` combinations, where `k` is the number of
non-empty optional attributes among the four tracked; the list is not
duplicate-free in general (only `2^k` of its entries are distinct), its
size lies between 1 (all optional attributes empty) and 16 (all
present), and every returned combination contains `product_type`. -/
theorem claim_C1 (p : Product)
    (h : (extractProductAttributes p).product_type ≠ "") :
    (generateAttributeCombinations p).length
        = 17 - 2 ^ (4 - optCount (extractProductAttributes p))
      ∧ 1 ≤ (generateAttributeCombinations p).length
      ∧ (generateAttributeCombinations p).length ≤ 16
      ∧ ∀ c ∈ generateAttributeCombinations p,
          ("product_type", (extractProductAttributes p).product_type) ∈ c := by
  unfold generateAttributeCombinations
  set a := extractProductAttributes p with ha
  have hlen := length_generateFromAttributes a h
  have hkle : optCount a ≤ 4 := by
    have h4 : OPTIONAL_ATTRIBUTES.length = 4 := by decide
    calc optCount a ≤ OPTIONAL_ATTRIBUTES.length := List.length_filter_le _ _
      _ = 4 := h4
  have hple : (2 : ℕ) ^ (4 - optCount a) ≤ 2 ^ 4 :=
    Nat.pow_le_pow_right (by norm_num) (Nat.sub_le _ _)
  have hppos : (1 : ℕ) ≤ 2 ^ (4 - optCount a) := Nat.one_le_two_pow
  refine ⟨hlen, by omega, by omega, ?_⟩
  intro c hc
  rcases mem_generateFromAttributes h hc with ⟨i, _, hceq, _⟩
  rw [hceq]
  exact mem_comboFor a i

/-- C1 witness: the amended statement instantiated at the concrete
Genie / Boom Lift product. -/
theorem claim_C1_witness :
    (extractProductAttributes genieProduct).product_type ≠ ""
      ∧ ((generateAttributeCombinations genieProduct).length
            = 17 - 2 ^ (4 - optCount (extractProductAttributes genieProduct))
          ∧ 1 ≤ (generateAttributeCombinations genieProduct).length
          ∧ (generateAttributeCombinations genieProduct).length ≤ 16
          ∧ ∀ c ∈ generateAttributeCombinations genieProduct,
              ("product_type",
                (extractProductAttributes genieProduct).product_type) ∈ c) :=
  ⟨by decide, claim_C1 genieProduct (by decide)⟩

/-- C10: for every product whose extracted `product_type` is non-empty,
exactly one element of the output of `generateAttributeCombinations` is
the bare combination containing only `product_type` (the one produced
by bit pattern 0); every other returned combination contains at least
one entry for a non-`product_type` attribute with a non-empty value. -/
theorem claim_C10 (p : Product)
    (h : (extractProductAttributes p).product_type ≠ "") :
    (generateAttributeCombinations p).count
        [("product_type", (extractProductAttributes p).product_type)] = 1
      ∧ ∀ c ∈ generateAttributeCombinations p,
          c ≠ [("product_type", (extractProductAttributes p).product_type)] →
          ∃ e ∈ c, e.1 ≠ "product_type" ∧ e.2 ≠ "" := by
  unfold generateAttributeCombinations
  set a := extractProductAttributes p with ha
  obtain ⟨rest, hgen, hrest⟩ := generateFromAttributes_eq_cons a h
  constructor
  · rw [hgen, List.count_cons_self]
    have hnotmem : [("product_type", a.product_type)] ∉ rest := by
      intro hmem
      have := hrest _ hmem
      simp at this
    rw [List.count_eq_zero.2 hnotmem]
  · intro c hc hne
    have hclen : 1 < c.length := by
      rw [hgen] at hc
      rcases List.mem_cons.1 hc with rfl | hmem
      · exact absurd rfl hne
      · exact hrest c hmem
    rcases mem_generateFromAttributes h hc with ⟨i, _, hceq, _⟩
    have hne_nil : optionalPart a i ≠ [] := by
      intro hnil
      rw [hceq, comboFor, hnil] at hclen
      simp [REQUIRED_ATTRIBUTES] at hclen
    obtain ⟨e, he⟩ := List.exists_mem_of_ne_nil _ hne_nil
    refine ⟨e, ?_, optionalPart_entry a i he⟩
    rw [hceq, comboFor]
    exact List.mem_append_right _ he

/-- C10 witness: the statement instantiated at the concrete Genie /
Boom Lift product. -/
theorem claim_C10_witness :
    (extractProductAttributes genieProduct).product_type ≠ ""
      ∧ ((generateAttributeCombinations genieProduct).count
            [("product_type",
              (extractProductAttributes genieProduct).product_type)] = 1
          ∧ ∀ c ∈ generateAttributeCombinations genieProduct,
              c ≠ [("product_type",
                    (extractProductAttributes genieProduct).product_type)] →
              ∃ e ∈ c, e.1 ≠ "product_type" ∧ e.2 ≠ "") :=
  ⟨by decide, claim_C10 genieProduct (by decide)⟩

/-! ### Lemmas about the duplicate detector -/

lemma bool_eq_of_iff {x y : Bool} (h : x = true ↔ y = true) : x = y := by
  cases x <;> cases y <;> simp_all

lemma ruleMatches_iff (nr er : Rule) :
    ruleMatches nr er = true ↔ RuleAgrees nr er := by
  simp [ruleMatches, RuleAgrees, imp_iff_not_or, and_assoc]

lemma collectionMatches_iff (rules : List Rule) (c : Collection) :
    collectionMatches rules c = true ↔
      ∃ ex, c.rules = some ex ∧ ex.length = rules.length ∧
        ∀ nr ∈ rules, ∃ er ∈ ex, RuleAgrees nr er := by
  cases h : c.rules with
  | none => simp [collectionMatches, h]
  | some ex =>
    simp [collectionMatches, h, List.all_eq_true, List.any_eq_true,
      ruleMatches_iff]

lemma similar_iff (rules : List Rule) (existing : List Collection) :
    doesSimilarCollectionExist rules existing = true ↔
      ∃ c ∈ existing, ∃ ex, c.rules = some ex ∧ ex.length = rules.length ∧
        ∀ nr ∈ rules, ∃ er ∈ ex, RuleAgrees nr er := by
  simp [doesSimilarCollectionExist, List.any_eq_true, collectionMatches_iff]

lemma similar_perm_mono {rules : List Rule} {c : Collection}
    {ex ex' : List Rule} (hperm : ex.Perm ex') (pre post : List Collection)
    (h : doesSimilarCollectionExist rules
        (pre ++ { c with rules := some ex' } :: post) = true) :
    doesSimilarCollectionExist rules
        (pre ++ { c with rules := some ex } :: post) = true := by
  rcases (similar_iff _ _).1 h with ⟨d, hd, dex, hrd, hlen, hall⟩
  apply (similar_iff _ _).2
  rw [List.mem_append, List.mem_cons] at hd
  rcases hd with hd | hd | hd
  · exact ⟨d, by simp [List.mem_append, hd], dex, hrd, hlen, hall⟩
  · subst hd
    injection hrd with hrd
    subst hrd
    refine ⟨{ c with rules := some ex }, by simp, ex, rfl, ?_, ?_⟩
    · rw [hperm.length_eq]
      exact hlen
    · intro nr hnr
      rcases hall nr hnr with ⟨er, her, hag⟩
      exact ⟨er, hperm.mem_iff.mpr her, hag⟩
  · exact ⟨d, by simp [List.mem_append, List.mem_cons, hd], dex, hrd, hlen, hall⟩

/-- C2: `doesSimilarCollectionExist` returns true iff some existing
collection has a rule list of the same length as the candidate list in
which every candidate rule finds a rule of equal column, relation and
condition (with the definition reference additionally required exactly
for the metafield-definition column); the verdict is invariant under
reordering of the candidate list and of any existing collection's rule
list, and it is false when no existing rule list has the candidate's
length. -/
theorem claim_C2 (rules : List Rule) (existing : List Collection) :
    (doesSimilarCollectionExist rules existing = true ↔
      ∃ c ∈ existing, ∃ ex, c.rules = some ex ∧ ex.length = rules.length ∧
        ∀ nr ∈ rules, ∃ er ∈ ex, RuleAgrees nr er)
    ∧ (∀ rules' : List Rule, rules.Perm rules' →
        doesSimilarCollectionExist rules' existing
          = doesSimilarCollectionExist rules existing)
    ∧ (∀ (c : Collection) (ex ex' : List Rule), ex.Perm ex' →
        ∀ pre post : List Collection,
        doesSimilarCollectionExist rules
            (pre ++ { c with rules := some ex' } :: post)
          = doesSimilarCollectionExist rules
            (pre ++ { c with rules := some ex } :: post))
    ∧ ((∀ c ∈ existing, ∀ ex, c.rules = some ex → ex.length ≠ rules.length) →
        doesSimilarCollectionExist rules existing = false) := by
  refine ⟨similar_iff rules existing, ?_, ?_, ?_⟩
  · intro rules' hperm
    refine bool_eq_of_iff ?_
    rw [similar_iff, similar_iff]
    constructor <;>
      · rintro ⟨c, hc, ex, hrc, hlen, hall⟩
        refine ⟨c, hc, ex, hrc, ?_, ?_⟩
        · have hL := hperm.length_eq
          omega
        · intro nr hnr
          first
          | exact hall nr (hperm.mem_iff.mp hnr)
          | exact hall nr (hperm.mem_iff.mpr hnr)
  · intro c ex ex' hperm pre post
    exact bool_eq_of_iff
      ⟨similar_perm_mono hperm pre post, similar_perm_mono hperm.symm pre post⟩
  · intro hnolen
    cases hval : doesSimilarCollectionExist rules existing with
    | false => rfl
    | true =>
      rcases (similar_iff rules existing).1 hval with ⟨c, hc, ex, hrc, hlen, _⟩
      exact absurd hlen (hnolen c hc ex hrc)

/-- C2 witness: with candidate `[vendor=Genie, type=Boom Lift]` and an
existing collection carrying the same two rules in the opposite order,
reordering the candidate list does not change the verdict, and the
duplicate is detected. -/
theorem claim_C2_witness :
    List.Perm [ruleA, ruleB] [ruleB, ruleA]
      ∧ doesSimilarCollectionExist [ruleB, ruleA] [collBA]
          = doesSimilarCollectionExist [ruleA, ruleB] [collBA]
      ∧ doesSimilarCollectionExist [ruleA, ruleB] [collBA] = true :=
  ⟨List.Perm.swap ruleB ruleA [], (claim_C2 [ruleA, ruleB] [collBA]).2.1
      [ruleB, ruleA] (List.Perm.swap ruleB ruleA []),
    by decide⟩

/-! ### Lemmas about the two rule shapes -/

lemma applyFlatRule_toFlatRule (defs : List (String × String))
    (a : CollAttrs) (g : GRule) (hg : GRuleResolvable defs g) :
    applyFlatRule defs a (toFlatRule g) = applyGRule defs a g := by
  by_cases h1 : (jsToLower g.column) = "type"
  · simp [applyFlatRule, applyGRule, toFlatRule, h1]
  · by_cases h2 : (jsToLower g.column) = "vendor"
    · simp [applyFlatRule, applyGRule, toFlatRule, h1, h2]
    · by_cases h3 : (jsToLower g.column) = "product_metafield_definition"
      · obtain ⟨md, hmd, hne, hnoslash, hlk⟩ := hg h3
        obtain ⟨k, hk⟩ := Option.ne_none_iff_exists'.1 hlk
        simp [applyFlatRule, applyGRule, toFlatRule, h1, h2, h3, hmd, hne,
          hnoslash, hk, Option.orElse]
      · simp [applyFlatRule, applyGRule, toFlatRule, h1, h2, h3]

lemma parse_fold_equiv (defs : List (String × String))
    (grules : List GRule) (hg : ∀ g ∈ grules, GRuleResolvable defs g) :
    ∀ a, (grules.map toFlatRule).foldl (applyFlatRule defs) a
        = grules.foldl (applyGRule defs) a := by
  induction grules with
  | nil => intro a; rfl
  | cons g gs ih =>
    intro a
    simp only [List.map_cons, List.foldl_cons]
    rw [applyFlatRule_toFlatRule defs a g (hg g (by simp))]
    exact ih (fun g' hg' => hg g' (by simp [hg'])) _

/-- C3, counterexample: the duplicate-check verdict is NOT independent
of the shape carrying semantically identical existing rules: the flat
shape of `type equals "Boom Lift"` is detected as a duplicate of the
candidate, the `ruleSet` shape of the very same rule is not — even
though the attribute extractor normalizes both shapes to the same
attribute record. -/
theorem claim_C3_counterexample :
    doesSimilarCollectionExist candRules [flatColl] = true
      ∧ doesSimilarCollectionExist candRules [gqlColl] = false
      ∧ parseCollectionAttributes flatColl []
          = parseCollectionAttributes gqlColl [] := by
  decide

/-- C3 (amended): only the attribute extractor
(`parseCollectionAttributes`) accepts both rule representations and
normalizes them into the same shape: for every GraphQL rule list whose
metafield rules carry a resolvable definition reference, parsing the
flat equivalent yields the same attributes as parsing the `ruleSet`
shape.  The duplicate check itself (`doesSimilarCollectionExist`) reads
only the flat `rules` list, so a collection whose rules arrive only in
the `ruleSet` shape is never reported as a duplicate. -/
theorem claim_C3 :
    (∀ (defs : List (String × String)) (grules : List GRule),
      (∀ g ∈ grules, GRuleResolvable defs g) →
      parseCollectionAttributes { rules := some (grules.map toFlatRule) } defs
        = parseCollectionAttributes { ruleSet := some grules } defs)
    ∧ (∀ (rules : List Rule) (existing : List Collection),
        (∀ c ∈ existing, c.rules = none) →
        doesSimilarCollectionExist rules existing = false) := by
  constructor
  · intro defs grules hg
    simp only [parseCollectionAttributes]
    exact parse_fold_equiv defs grules hg {}
  · intro rules existing hnone
    rw [doesSimilarCollectionExist, List.any_eq_false]
    intro c hc
    simp [collectionMatches, hnone c hc]

/-- C3 witness: the second component applied to the `ruleSet`-shaped
collection — it is never a duplicate of anything. -/
theorem claim_C3_witness :
    (∀ c ∈ [gqlColl], c.rules = none)
      ∧ doesSimilarCollectionExist candRules [gqlColl] = false :=
  ⟨by decide, claim_C3.2 candRules [gqlColl] (by decide)⟩

/-- C8, counterexample: the alias matching is NOT case-insensitive for
all three attributes: a metafield keyed `"Fuel_Type"` (or
`"Size_Item"`) is ignored while its lowercase form maps, and the
definitions-map builder stores `"Size_Item"` under that exact key
rather than under `size_item`. -/
theorem claim_C8_counterexample :
    (extractProductAttributes fuelCasedProduct).fuel_type = ""
      ∧ (extractProductAttributes fuelLowerProduct).fuel_type = "Diesel"
      ∧ (extractProductAttributes sizeCasedProduct).size_item = ""
      ∧ buildDefinitionsMap [("Size_Item", "12")] = [("Size_Item", "12")] := by
  decide

/-- C8 (amended): the attribute extractor matches `condition`
case-insensitively (any casing, plus the literal `Condition`), matches
the size slot on the exact key `size_item` or any casing of `size`, and
matches `fuel_type` only on that exact lowercase key; any other key —
including `"Fuel_Type"` and `"Size_Item"` — leaves the attribute set
unchanged.  The definitions-map builder treats `condition` the same
way, while `size_item` and `fuel_type` match exactly and every other
key (e.g. `"Fuel_Type"`) is stored under itself. -/
theorem claim_C8 (a : Attrs) (key value : String)
    (m : List (String × String)) (gid : String) :
    ((key = "Condition" ∨ jsToLower key = "condition") →
        applyMetafield a (key, value) = { a with condition := value })
    ∧ (¬ (key = "Condition" ∨ jsToLower key = "condition") →
        (key = "size_item" ∨ jsToLower key = "size") →
        applyMetafield a (key, value) = { a with size_item := value })
    ∧ (¬ (key = "Condition" ∨ jsToLower key = "condition") →
        ¬ (key = "size_item" ∨ jsToLower key = "size") →
        key = "fuel_type" →
        applyMetafield a (key, value) = { a with fuel_type := value })
    ∧ (¬ (key = "Condition" ∨ jsToLower key = "condition") →
        ¬ (key = "size_item" ∨ jsToLower key = "size") →
        key ≠ "fuel_type" →
        applyMetafield a (key, value) = a)
    ∧ ((key = "Condition" ∨ jsToLower key = "condition") →
        addDefinition m (key, gid) = upsert m "condition" (splitPop gid))
    ∧ (¬ (key = "Condition" ∨ jsToLower key = "condition") →
        key ≠ "size_item" → key ≠ "fuel_type" →
        addDefinition m (key, gid) = upsert m key (splitPop gid)) := by
  refine ⟨?_, ?_, ?_, ?_, ?_, ?_⟩
  · intro h
    simp only [applyMetafield]
    rw [if_pos h]
  · intro h1 h2
    simp only [applyMetafield]
    rw [if_neg h1, if_pos h2]
  · intro h1 h2 h3
    simp only [applyMetafield]
    rw [if_neg h1, if_neg h2, if_pos h3]
  · intro h1 h2 h3
    simp only [applyMetafield]
    rw [if_neg h1, if_neg h2, if_neg h3]
  · intro h
    simp only [addDefinition]
    rw [if_pos h]
  · intro h1 h2 h3
    simp only [addDefinition]
    rw [if_neg h1, if_neg h2, if_neg h3]

/-- C8 witness: the amended statement at key `"CONDITION"` — an
arbitrary casing of `condition` does map to the condition slot. -/
theorem claim_C8_witness :
    ("CONDITION" = "Condition" ∨ jsToLower "CONDITION" = "condition")
      ∧ applyMetafield {} ("CONDITION", "Used") = { condition := "Used" } :=
  ⟨Or.inr (by decide),
    (claim_C8 {} "CONDITION" "Used" [] "").1 (Or.inr (by decide))⟩

/-- C9: whenever the provided signature header differs from the HMAC
recomputed over the raw body (including a missing header), the webhook
handler returns 403 without reaching the `JSON.parse` step and without
enqueueing anything; conversely a product is enqueued only when the
header equals the recomputed HMAC (fail-closed). -/
theorem claim_C9 (hmacOf : String → String) (hmacHeader : Option String)
    (rawBody : String) (parsedId : String → Option String) :
    (hmacHeader ≠ some (hmacOf rawBody) →
      webhookProductsCreate hmacOf hmacHeader rawBody parsedId
        = { status := 403, bodyParsed := false, enqueued := none })
    ∧ (∀ pid,
        (webhookProductsCreate hmacOf hmacHeader rawBody parsedId).enqueued
          = some pid →
        hmacHeader = some (hmacOf rawBody)
          ∧ (webhookProductsCreate hmacOf hmacHeader rawBody parsedId).status
              = 200) := by
  constructor
  · intro hne
    cases hmacHeader with
    | none => rfl
    | some h =>
      have hne' : hmacOf rawBody ≠ h := fun he => hne (by rw [he])
      simp [webhookProductsCreate, hne']
  · intro pid hq
    cases hmacHeader with
    | none => simp [webhookProductsCreate] at hq
    | some h =>
      by_cases he : hmacOf rawBody = h
      · subst he
        refine ⟨rfl, ?_⟩
        cases hp : parsedId rawBody with
        | none => exfalso; simp [webhookProductsCreate, hp] at hq
        | some pid' => simp [webhookProductsCreate, hp]
      · simp [webhookProductsCreate, he] at hq

/-- C9 witness: a mismatching signature on a concrete request is
rejected with 403 and nothing is enqueued. -/
theorem claim_C9_witness :
    (some "bad" ≠ some ((fun _ => "goodsig") "body"))
      ∧ webhookProductsCreate (fun _ => "goodsig") (some "bad") "body"
          (fun _ => some "42")
        = { status := 403, bodyParsed := false, enqueued := none } :=
  ⟨by decide,
    (claim_C9 (fun _ => "goodsig") (some "bad") "body" (fun _ => some "42")).1
      (by decide)⟩

/-- C6: in the related-collections resolver, another collection's entry
lands in `byManufacturer` exactly when the target has no vendor
attribute, the target has a non-empty product type, the other
collection's product type equals the target's, and the other
collection's vendor attribute is non-empty; in particular
`byManufacturer` is empty whenever the target itself has a vendor
attribute. -/
theorem claim_C6 (collectionHandle : String) (collection : Collection)
    (defs : List (String × String)) (allCollections : List Collection) :
    (∀ o ∈ allCollections,
        o.handle ≠ collectionHandle →
        (parseCollectionAttributes collection defs).vendor = "" →
        (parseCollectionAttributes collection defs).product_type ≠ "" →
        (parseCollectionAttributes o defs).product_type
            = (parseCollectionAttributes collection defs).product_type →
        (parseCollectionAttributes o defs).vendor ≠ "" →
        refOf o ∈ (getRelatedCollections collectionHandle collection defs
            allCollections).byManufacturer)
    ∧ (∀ e ∈ (getRelatedCollections collectionHandle collection defs
          allCollections).byManufacturer,
        ∃ o ∈ allCollections, refOf o = e ∧ o.handle ≠ collectionHandle ∧
          (parseCollectionAttributes collection defs).vendor = "" ∧
          (parseCollectionAttributes collection defs).product_type ≠ "" ∧
          (parseCollectionAttributes o defs).product_type
              = (parseCollectionAttributes collection defs).product_type ∧
          (parseCollectionAttributes o defs).vendor ≠ "")
    ∧ ((parseCollectionAttributes collection defs).vendor ≠ "" →
        (getRelatedCollections collectionHandle collection defs
            allCollections).byManufacturer = []) := by
  refine ⟨?_, ?_, ?_⟩
  · intro o ho hh hv hp hpt hov
    simp only [getRelatedCollections]
    apply List.mem_filterMap.2
    refine ⟨o, ho, ?_⟩
    rw [if_pos]
    exact ⟨hh, by simp [truthy, hv], by simp [truthy, hp], hpt,
      by simp [truthy, hov]⟩
  · intro e he
    simp only [getRelatedCollections] at he
    rcases List.mem_filterMap.1 he with ⟨o, ho, hfe⟩
    split_ifs at hfe with hcond
    · injection hfe with hfe
      obtain ⟨hh, hnv, hpt, heq, hov⟩ := hcond
      exact ⟨o, ho, hfe, hh, by simpa [truthy] using hnv,
        by simpa [truthy] using hpt, heq, by simpa [truthy] using hov⟩
  · intro hv
    simp only [getRelatedCollections]
    apply List.filterMap_eq_nil_iff.2
    intro o ho
    rw [if_neg]
    intro hcond
    exact hcond.2.1 (by simp [truthy, hv])

/-- C6 witness: the spec's concrete scenario — target filtering only on
product type `"Boom Lift"`, other collection with the same product type
and vendor `"Genie"` appears in `byManufacturer`; a target that already
has the vendor rule gets an empty `byManufacturer`. -/
theorem claim_C6_witness :
    (genieBL ∈ [blTarget, genieBL]
      ∧ genieBL.handle ≠ "boom-lift"
      ∧ (parseCollectionAttributes blTarget []).vendor = ""
      ∧ (parseCollectionAttributes blTarget []).product_type ≠ ""
      ∧ (parseCollectionAttributes genieBL []).product_type
          = (parseCollectionAttributes blTarget []).product_type
      ∧ (parseCollectionAttributes genieBL []).vendor ≠ ""
      ∧ refOf genieBL ∈ (getRelatedCollections "boom-lift" blTarget []
          [blTarget, genieBL]).byManufacturer)
    ∧ ((parseCollectionAttributes genieTarget []).vendor ≠ ""
      ∧ (getRelatedCollections "genie-boom-lift" genieTarget []
          [blTarget, genieBL]).byManufacturer = []) :=
  ⟨⟨by decide, by decide, by decide, by decide, by decide, by decide,
    (claim_C6 "boom-lift" blTarget [] [blTarget, genieBL]).1 genieBL
      (by decide) (by decide) (by decide) (by decide) (by decide) (by decide)⟩,
   ⟨by decide,
    (claim_C6 "genie-boom-lift" genieTarget [] [blTarget, genieBL]).2.2
      (by decide)⟩⟩

/-! ### Lemmas about the duplicate-collection reconciler -/

lemma orderedInsert_congr {α : Type} (r r' : α → α → Prop)
    [DecidableRel r] [DecidableRel r'] (a : α) :
    ∀ l : List α, (∀ b ∈ l, (r a b ↔ r' a b)) →
      l.orderedInsert r a = l.orderedInsert r' a := by
  intro l h
  induction l with
  | nil => rfl
  | cons b t ih =>
    rw [List.orderedInsert, List.orderedInsert]
    by_cases hb : r a b
    · rw [if_pos hb, if_pos ((h b (by simp)).1 hb)]
    · rw [if_neg hb, if_neg (fun h' => hb ((h b (by simp)).2 h')),
        ih (fun c hc => h c (by simp [hc]))]

lemma insertionSort_congr {α : Type} (r r' : α → α → Prop)
    [DecidableRel r] [DecidableRel r'] :
    ∀ l : List α, (∀ a ∈ l, ∀ b ∈ l, (r a b ↔ r' a b)) →
      l.insertionSort r = l.insertionSort r' := by
  intro l
  induction l with
  | nil => intro _; rfl
  | cons a t ih =>
    intro h
    rw [List.insertionSort, List.insertionSort]
    rw [ih (fun x hx y hy => h x (by simp [hx]) y (by simp [hy]))]
    exact orderedInsert_congr r r' a _ (fun b hb =>
      h a (by simp) b
        (by simp [(List.perm_insertionSort r' t).mem_iff.1 hb]))

lemma sortGroup_eq_time (g : List Collection)
    (hall : ∀ c ∈ g, c.created_at ≠ none) :
    sortGroup g = g.insertionSort timeLe := by
  apply insertionSort_congr
  intro a ha b hb
  obtain ⟨ta, hta⟩ := Option.ne_none_iff_exists'.1 (hall a ha)
  obtain ⟨tb, htb⟩ := Option.ne_none_iff_exists'.1 (hall b hb)
  simp [collLe, timeLe, hta, htb]

lemma sortGroup_head_min (g : List Collection)
    (hall : ∀ c ∈ g, c.created_at ≠ none) (s : Collection)
    (rest : List Collection) (hsort : sortGroup g = s :: rest) :
    ∀ c ∈ g, s.created_at.getD 0 ≤ c.created_at.getD 0 := by
  rw [sortGroup_eq_time g hall] at hsort
  haveI : IsTotal Collection timeLe := ⟨fun a b => Int.le_total _ _⟩
  haveI : IsTrans Collection timeLe := ⟨fun a b c => Int.le_trans⟩
  have hsorted := List.sorted_insertionSort timeLe g
  rw [hsort] at hsorted
  intro c hc
  have hc' : c ∈ s :: rest := by
    rw [← hsort]
    exact (List.perm_insertionSort timeLe g).mem_iff.2 hc
  rcases List.mem_cons.1 hc' with rfl | hrest
  · exact le_refl _
  · exact (List.sorted_cons.1 hsorted).1 c hrest

lemma cleanupPlan_step_mono (gs : List (String × List Collection)) :
    ∀ acc (x : Int), x ∈ acc →
      x ∈ gs.foldl (fun acc g =>
        if 1 < g.2.length then acc ++ groupDeletions g.2 else acc) acc := by
  induction gs with
  | nil => intro acc x hx; exact hx
  | cons g t ih =>
    intro acc x hx
    simp only [List.foldl_cons]
    apply ih
    by_cases hg : 1 < g.2.length
    · rw [if_pos hg]; exact List.mem_append_left _ hx
    · rw [if_neg hg]; exact hx

lemma mem_foldl_plan (x : Int) :
    ∀ (gs : List (String × List Collection)) (acc : List Int) (k : String)
      (G : List Collection), (k, G) ∈ gs → 1 < G.length →
      x ∈ groupDeletions G →
      x ∈ gs.foldl (fun acc g =>
        if 1 < g.2.length then acc ++ groupDeletions g.2 else acc) acc := by
  intro gs
  induction gs with
  | nil => intro acc k G h; cases h
  | cons g t ih =>
    intro acc k G hG hlen hx
    simp only [List.foldl_cons]
    rcases List.mem_cons.1 hG with rfl | hmem
    · apply cleanupPlan_step_mono
      rw [if_pos hlen]
      exact List.mem_append_right _ hx
    · exact ih _ k G hmem hlen hx

lemma mem_cleanupPlan_of_group (cs : List Collection) (k : String)
    (G : List Collection) (hG : (k, G) ∈ groupsBySignature cs)
    (hlen : 1 < G.length) (x : Int) (hx : x ∈ groupDeletions G) :
    x ∈ cleanupPlan cs := by
  rw [cleanupPlan]
  exact mem_foldl_plan x (groupsBySignature cs) [] k G hG hlen hx

/-- C7: for every signature group with more than one member, the
reconciler's sorted group splits into a survivor and the rest; the
sorted group is a permutation of the group, the per-group deletion list
is exactly the non-survivors' ids (all of which end up in the global
deletion plan), and when every member has a creation timestamp the
survivor's is minimal.  The spec's concrete scenario: two collections
carrying `vendor equals Genie` and `type equals Boom Lift` in opposite
orders share one signature, and the plan deletes exactly the
higher-id one. -/
theorem claim_C7 (cs : List Collection) :
    (∀ k G, (k, G) ∈ groupsBySignature cs → 1 < G.length →
      ∃ s rest, sortGroup G = s :: rest
        ∧ (s :: rest).Perm G
        ∧ groupDeletions G = rest.map (·.id)
        ∧ rest.length = G.length - 1
        ∧ (∀ x ∈ rest, x.id ∈ cleanupPlan cs)
        ∧ ((∀ c ∈ G, c.created_at ≠ none) →
            ∀ c ∈ G, s.created_at.getD 0 ≤ c.created_at.getD 0))
    ∧ collectionSig [ruleA, ruleB] = collectionSig [ruleB, ruleA]
    ∧ cleanupPlan [dup1, dup2] = [2] := by
  refine ⟨?_, by decide, by decide⟩
  intro k G hG hlen
  have hperm : (sortGroup G).Perm G :=
    List.perm_insertionSort (fun a b => collLe a b = true) G
  cases hsg : sortGroup G with
  | nil =>
    exfalso
    rw [hsg] at hperm
    have := hperm.length_eq
    simp at this
    omega
  | cons s rest =>
    rw [hsg] at hperm
    refine ⟨s, rest, rfl, hperm, ?_, ?_, ?_, ?_⟩
    · rw [groupDeletions, hsg]
      rfl
    · have := hperm.length_eq
      simp at this
      omega
    · intro x hx
      apply mem_cleanupPlan_of_group cs k G hG hlen
      rw [groupDeletions, hsg]
      simp only [List.drop_one, List.tail_cons]
      exact List.mem_map.2 ⟨x, hx, rfl⟩
    · intro hall c hc
      exact sortGroup_head_min G hall s rest hsg c hc

/-- C7 witness: the concrete two-collection scenario instantiating the
group property — one group, survivor `dup1`, deletion of `dup2`. -/
theorem claim_C7_witness :
    ((collectionSig [ruleA, ruleB], [dup1, dup2])
        ∈ groupsBySignature [dup1, dup2])
      ∧ 1 < ([dup1, dup2] : List Collection).length
      ∧ ∃ s rest, sortGroup [dup1, dup2] = s :: rest
          ∧ (s :: rest).Perm [dup1, dup2]
          ∧ groupDeletions [dup1, dup2] = rest.map (·.id)
          ∧ rest.length = ([dup1, dup2] : List Collection).length - 1
          ∧ (∀ x ∈ rest, x.id ∈ cleanupPlan [dup1, dup2])
          ∧ ((∀ c ∈ [dup1, dup2], c.created_at ≠ none) →
              ∀ c ∈ [dup1, dup2],
                s.created_at.getD 0 ≤ c.created_at.getD 0) :=
  ⟨by decide, by decide,
    (claim_C7 [dup1, dup2]).1 (collectionSig [ruleA, ruleB]) [dup1, dup2]
      (by decide) (by decide)⟩

/-! ### Lemmas about the entry sort of `createCollectionDetails` -/

lemma product_key_in_order :
    ∀ k ∈ PRODUCT_ATTRIBUTES, jsIndexOf attributeOrder k ≠ -1 := by decide

lemma product_keyIdx_inj :
    ∀ k ∈ PRODUCT_ATTRIBUTES, ∀ k' ∈ PRODUCT_ATTRIBUTES,
      jsIndexOf attributeOrder k = jsIndexOf attributeOrder k' → k = k' := by
  decide

lemma entryCmpLe_total (a b : String × String) :
    entryCmpLe a b = true ∨ entryCmpLe b a = true := by
  unfold entryCmpLe
  by_cases ha : jsIndexOf attributeOrder a.1 = -1 <;>
    by_cases hb : jsIndexOf attributeOrder b.1 = -1 <;>
    simp [ha, hb] <;> omega

lemma entryCmpLe_trans (a b c : String × String)
    (h1 : entryCmpLe a b = true) (h2 : entryCmpLe b c = true) :
    entryCmpLe a c = true := by
  unfold entryCmpLe at h1 h2 ⊢
  by_cases ha : jsIndexOf attributeOrder a.1 = -1 <;>
    by_cases hb : jsIndexOf attributeOrder b.1 = -1 <;>
    by_cases hc : jsIndexOf attributeOrder c.1 = -1 <;>
    simp_all <;> omega

lemma entryCmpLe_le (a b : String × String) (h : entryCmpLe a b = true)
    (ha : jsIndexOf attributeOrder a.1 ≠ -1)
    (hb : jsIndexOf attributeOrder b.1 ≠ -1) :
    jsIndexOf attributeOrder a.1 ≤ jsIndexOf attributeOrder b.1 := by
  unfold entryCmpLe at h
  simp [ha, hb] at h
  exact h

lemma sortEntries_sorted_strict (l : List (String × String))
    (hkeys : ∀ e ∈ l, e.1 ∈ PRODUCT_ATTRIBUTES)
    (hnodup : (l.map Prod.fst).Nodup) :
    (sortEntries l).Pairwise (fun a b =>
      jsIndexOf attributeOrder a.1 < jsIndexOf attributeOrder b.1) := by
  haveI : IsTotal (String × String) (fun a b => entryCmpLe a b = true) :=
    ⟨entryCmpLe_total⟩
  haveI : IsTrans (String × String) (fun a b => entryCmpLe a b = true) :=
    ⟨entryCmpLe_trans⟩
  have hs : (sortEntries l).Sorted (fun a b => entryCmpLe a b = true) :=
    List.sorted_insertionSort _ l
  have hperm : (sortEntries l).Perm l :=
    List.perm_insertionSort (fun a b => entryCmpLe a b = true) l
  have hnd : ((sortEntries l).map Prod.fst).Nodup :=
    ((hperm.map Prod.fst).nodup_iff).2 hnodup
  have hne : (sortEntries l).Pairwise (fun a b => a.1 ≠ b.1) :=
    List.pairwise_map.1 hnd
  refine List.Pairwise.imp_of_mem ?_ (hs.and hne)
  intro a b ha hb hr
  have hka := product_key_in_order a.1 (hkeys a (hperm.mem_iff.1 ha))
  have hkb := product_key_in_order b.1 (hkeys b (hperm.mem_iff.1 hb))
  have hle := entryCmpLe_le a b hr.1 hka hkb
  have hne' : jsIndexOf attributeOrder a.1 ≠ jsIndexOf attributeOrder b.1 :=
    fun he => hr.2 (product_keyIdx_inj a.1 (hkeys a (hperm.mem_iff.1 ha))
      b.1 (hkeys b (hperm.mem_iff.1 hb)) he)
  omega

lemma sortEntries_perm_eq {l₁ l₂ : List (String × String)}
    (hperm : l₁.Perm l₂)
    (hkeys : ∀ e ∈ l₁, e.1 ∈ PRODUCT_ATTRIBUTES)
    (hnodup : (l₁.map Prod.fst).Nodup) :
    sortEntries l₁ = sortEntries l₂ := by
  have hkeys₂ : ∀ e ∈ l₂, e.1 ∈ PRODUCT_ATTRIBUTES :=
    fun e he => hkeys e (hperm.mem_iff.2 he)
  have hnodup₂ : (l₂.map Prod.fst).Nodup :=
    (hperm.map Prod.fst).nodup_iff.1 hnodup
  haveI : IsAntisymm (String × String) (fun a b =>
      jsIndexOf attributeOrder a.1 < jsIndexOf attributeOrder b.1) :=
    ⟨fun a b h1 h2 => absurd (lt_trans h1 h2) (lt_irrefl _)⟩
  apply List.eq_of_perm_of_sorted
    (r := fun a b : String × String =>
      jsIndexOf attributeOrder a.1 < jsIndexOf attributeOrder b.1)
  · exact ((List.perm_insertionSort _ l₁).trans hperm).trans
      (List.perm_insertionSort _ l₂).symm
  · exact sortEntries_sorted_strict l₁ hkeys hnodup
  · exact sortEntries_sorted_strict l₂ hkeys₂ hnodup₂

/-- C5: `createCollectionDetails` is order-invariant — for combinations
with the same attribute-name-to-value content in different insertion
orders (keys drawn from the five tracked attributes, no duplicate
keys), the produced details (in particular `title` and `handle`) are
identical, because the entries are sorted into the fixed canonical
attribute order before the title and handle are assembled. -/
theorem claim_C5 (l₁ l₂ : List (String × String))
    (defs : List (String × String)) (hperm : l₁.Perm l₂)
    (hkeys : ∀ e ∈ l₁, e.1 ∈ PRODUCT_ATTRIBUTES)
    (hnodup : (l₁.map Prod.fst).Nodup) :
    createCollectionDetails l₁ defs = createCollectionDetails l₂ defs := by
  have hfp : (l₁.filter fun e => truthy e.2).Perm
      (l₂.filter fun e => truthy e.2) := hperm.filter _
  have hkf : ∀ e ∈ l₁.filter (fun e => truthy e.2),
      e.1 ∈ PRODUCT_ATTRIBUTES :=
    fun e he => hkeys e (List.mem_of_mem_filter he)
  have hnf : ((l₁.filter fun e => truthy e.2).map Prod.fst).Nodup :=
    List.Nodup.sublist ((List.filter_sublist l₁).map Prod.fst) hnodup
  have hse := sortEntries_perm_eq hfp hkf hnf
  have hemp : (l₁.filter fun e => truthy e.2).isEmpty
      = (l₂.filter fun e => truthy e.2).isEmpty := by
    apply bool_eq_of_iff
    rw [List.isEmpty_iff_length_eq_zero, List.isEmpty_iff_length_eq_zero,
      hfp.length_eq]
  unfold createCollectionDetails
  rw [hemp, hse]

/-- C5 witness: the spec's concrete pair — `{fuelType, productType}` in
the two insertion orders builds identical details. -/
theorem claim_C5_witness :
    ([("fuel_type", "Electric"), ("product_type", "Boom Lift")]
        : List (String × String)).Perm
      [("product_type", "Boom Lift"), ("fuel_type", "Electric")]
    ∧ (∀ e ∈ ([("fuel_type", "Electric"), ("product_type", "Boom Lift")]
        : List (String × String)), e.1 ∈ PRODUCT_ATTRIBUTES)
    ∧ (([("fuel_type", "Electric"), ("product_type", "Boom Lift")]
        : List (String × String)).map Prod.fst).Nodup
    ∧ createCollectionDetails
        [("fuel_type", "Electric"), ("product_type", "Boom Lift")]
        [("fuel_type", "9")]
      = createCollectionDetails
        [("product_type", "Boom Lift"), ("fuel_type", "Electric")]
        [("fuel_type", "9")] :=
  ⟨List.Perm.swap ("product_type", "Boom Lift") ("fuel_type", "Electric") [],
   by decide, by decide,
   claim_C5 _ _ [("fuel_type", "9")]
     (List.Perm.swap ("product_type", "Boom Lift") ("fuel_type", "Electric") [])
     (by decide) (by decide)⟩

/-! ### Lemmas for the rule round trip -/

set_option maxHeartbeats 1600000 in
lemma collAttr_setAttr (a : CollAttrs) (k v k' : String) :
    collAttr (setAttr a k v) k'
      = if k' = k ∧ k ∈ PRODUCT_ATTRIBUTES then v else collAttr a k' := by
  unfold setAttr collAttr PRODUCT_ATTRIBUTES
  split_ifs <;> simp_all

lemma collAttr_empty (k : String) : collAttr {} k = "" := by
  unfold collAttr
  split_ifs <;> rfl

lemma lookupDef_mem {defs : List (String × String)} {k i : String}
    (hl : lookupDef defs k = some i) : (k, i) ∈ defs := by
  unfold lookupDef at hl
  cases hfind : defs.find? (fun e => e.1 = k) with
  | none => rw [hfind] at hl; cases hl
  | some p =>
    rw [hfind] at hl
    injection hl with hl
    have hpk : p.1 = k := by simpa using List.find?_some hfind
    have hpm : p ∈ defs := List.mem_of_find?_eq_some hfind
    cases p with
    | mk p1 p2 =>
      simp only at hpk hl
      subst hpk
      subst hl
      exact hpm

lemma revLookup_of_lookupDef {defs : List (String × String)}
    (hwf : DefsWellFormed defs) {k i : String}
    (hl : lookupDef defs k = some i) : revLookup defs i = some k := by
  obtain ⟨_, hnv, _⟩ := hwf
  have hpm : (k, i) ∈ defs := lookupDef_mem hl
  unfold revLookup
  cases hfind2 : defs.reverse.find? (fun e => e.2 = i) with
  | none =>
    exfalso
    rw [List.find?_eq_none] at hfind2
    exact hfind2 (k, i) (List.mem_reverse.2 hpm) (by simp)
  | some q =>
    have hq2 : q.2 = i := by simpa using List.find?_some hfind2
    have hqm : q ∈ defs := List.mem_reverse.1 (List.mem_of_find?_eq_some hfind2)
    have hq : q = (k, i) :=
      List.inj_on_of_nodup_map hnv hqm hpm (by simpa using hq2)
    rw [hq]
    rfl

lemma applyFlatRule_of_ruleForEntry {defs : List (String × String)}
    (hwf : DefsWellFormed defs) (e : String × String) {r : Rule}
    (hr : ruleForEntry defs e = some r) (a : CollAttrs) :
    applyFlatRule defs a r = setAttr a e.1 e.2 := by
  by_cases h1 : e.1 = "vendor"
  · have hre : ruleForEntry defs e
        = some { column := "vendor", relation := "equals", condition := e.2 } := by
      unfold ruleForEntry
      rw [if_pos h1]
    rw [hre] at hr
    injection hr with hr
    subst hr
    simp [applyFlatRule, setAttr, h1]
  · by_cases h2 : e.1 = "product_type"
    · have hre : ruleForEntry defs e
          = some { column := "type", relation := "equals", condition := e.2 } := by
        unfold ruleForEntry
        rw [if_neg h1, if_pos h2]
      rw [hre] at hr
      injection hr with hr
      subst hr
      simp [applyFlatRule, setAttr, h1, h2]
    · by_cases h3 : e.1 = "condition" ∨ e.1 = "fuel_type" ∨ e.1 = "size_item"
      · cases hld : lookupDef defs e.1 with
        | none =>
          exfalso
          have hre : ruleForEntry defs e = none := by
            unfold ruleForEntry
            rw [if_neg h1, if_neg h2, if_pos h3, hld]
          rw [hre] at hr
          cases hr
        | some i =>
          obtain ⟨hi_ne, hi_ns⟩ := hwf.2.2 _ (lookupDef_mem hld)
          simp only at hi_ne hi_ns
          have htr : truthy i = true := by simpa [truthy] using hi_ne
          have hre : ruleForEntry defs e
              = some { column := "product_metafield_definition",
                       relation := "equals", condition := e.2,
                       condition_object_id := some i } := by
            unfold ruleForEntry
            rw [if_neg h1, if_neg h2, if_pos h3, hld]
            show (if truthy i = true then
                some ({ column := "product_metafield_definition",
                        relation := "equals", condition := e.2,
                        condition_object_id := some i } : Rule)
              else none) = _
            rw [if_pos htr]
          rw [hre] at hr
          injection hr with hr
          subst hr
          have hrev := revLookup_of_lookupDef hwf hld
          unfold applyFlatRule
          rw [if_neg (by simp), if_neg (by simp), if_pos rfl]
          show (if i = "" then a
            else match revLookup defs
                (if jsContains i '/' = true then splitPop i else i) with
              | some attributeKey => setAttr a attributeKey e.2
              | none => a) = setAttr a e.1 e.2
          rw [if_neg hi_ne, if_neg hi_ns, hrev]
      · exfalso
        have hre : ruleForEntry defs e = none := by
          unfold ruleForEntry
          rw [if_neg h1, if_neg h2, if_neg h3]
        rw [hre] at hr
        cases hr

lemma foldl_applyFlatRule_filterMap {defs : List (String × String)}
    (hwf : DefsWellFormed defs) :
    ∀ (L : List (String × String)) (a : CollAttrs),
      (∀ e ∈ L, ruleForEntry defs e ≠ none) →
      (L.filterMap (ruleForEntry defs)).foldl (applyFlatRule defs) a
        = L.foldl (fun a e => setAttr a e.1 e.2) a := by
  intro L
  induction L with
  | nil => intro a _; rfl
  | cons e t ih =>
    intro a hsome
    obtain ⟨r, hr⟩ := Option.ne_none_iff_exists'.1 (hsome e (by simp))
    rw [List.filterMap_cons_some hr]
    simp only [List.foldl_cons]
    rw [applyFlatRule_of_ruleForEntry hwf e hr a]
    exact ih _ (fun x hx => hsome x (by simp [hx]))

lemma collAttr_foldl_setAttr :
    ∀ (L : List (String × String)) (a : CollAttrs) (k : String),
      (∀ e ∈ L, e.1 ∈ PRODUCT_ATTRIBUTES) →
      collAttr (L.foldl (fun a e => setAttr a e.1 e.2) a) k
        = ((L.reverse.find? (fun e => e.1 = k)).map (·.2)).getD
            (collAttr a k) := by
  intro L
  induction L with
  | nil => intro a k _; rfl
  | cons e t ih =>
    intro a k hkeys
    simp only [List.foldl_cons, List.reverse_cons]
    rw [ih _ k (fun x hx => hkeys x (by simp [hx]))]
    rw [List.find?_append]
    cases hf : t.reverse.find? (fun x => x.1 = k) with
    | some q => simp [Option.or]
    | none =>
      simp only [Option.or, collAttr_setAttr]
      by_cases hek : e.1 = k
      · rw [if_pos ⟨hek.symm, hkeys e (by simp)⟩]
        simp [List.find?_cons, hek]
      · rw [if_neg (fun hc => hek hc.1.symm)]
        simp [List.find?_cons, hek]

lemma find?_key_unique :
    ∀ (l : List (String × String)), (l.map Prod.fst).Nodup →
      ∀ e ∈ l, l.find? (fun x => x.1 = e.1) = some e := by
  intro l
  induction l with
  | nil => intro _ e he; cases he
  | cons h t ih =>
    intro hnd e he
    simp only [List.map_cons, List.nodup_cons] at hnd
    rw [List.find?_cons]
    rcases List.mem_cons.1 he with rfl | het
    · simp
    · have hne : h.1 ≠ e.1 := by
        intro heq
        exact hnd.1 (by rw [heq]; exact List.mem_map.2 ⟨e, het, rfl⟩)
      simp only [decide_eq_false hne]
      exact ih hnd.2 e het

/-- C4, counterexample: with a definitions map assigning the same id to
two attributes — each attribute still "has an entry in the definition
map" — the round trip fails: the condition value `"Used"` comes back in
the `fuel_type` slot (the reverse index's last-write-wins) and the
condition slot stays empty. -/
theorem claim_C4_counterexample :
    lookupDef collidingDefs "condition" = some "7"
      ∧ ((createCollectionDetails collidingCombo collidingDefs).map
          (fun d => (parseCollectionAttributes { rules := some d.rules }
            collidingDefs).condition)) = some ""
      ∧ ((createCollectionDetails collidingCombo collidingDefs).map
          (fun d => (parseCollectionAttributes { rules := some d.rules }
            collidingDefs).fuel_type)) = some "Used" := by
  decide

/-- C4 (amended): for every attribute combination (keys among the five
tracked attributes, no duplicates) whose metafield-backed attributes
each have an entry in the definition map, and for every definition map
with distinct keys, pairwise-distinct non-empty slash-free ids (as
`getProductMetafieldDefinitions` produces), feeding the rules of
`createCollectionDetails` back through the collection-path attribute
extractor with the same map reproduces exactly the original attribute
values: every non-empty entry comes back unchanged, and attributes the
combination does not carry come back empty. -/
theorem claim_C4 (combination defs : List (String × String))
    (hkeys : ∀ e ∈ combination, e.1 ∈ PRODUCT_ATTRIBUTES)
    (hnodup : (combination.map Prod.fst).Nodup)
    (hwf : DefsWellFormed defs)
    (hmapped : ∀ e ∈ combination, e.2 ≠ "" →
      (e.1 = "condition" ∨ e.1 = "fuel_type" ∨ e.1 = "size_item") →
      lookupDef defs e.1 ≠ none)
    (d : CollectionDetails)
    (hd : createCollectionDetails combination defs = some d) :
    (∀ e ∈ combination, e.2 ≠ "" →
      collAttr (parseCollectionAttributes { rules := some d.rules } defs) e.1
        = e.2)
    ∧ (∀ k ∈ PRODUCT_ATTRIBUTES, (∀ v, (k, v) ∈ combination → v = "") →
      collAttr (parseCollectionAttributes { rules := some d.rules } defs) k
        = "") := by
  have hne : ¬ (combination.filter fun e => truthy e.2).isEmpty = true := by
    intro hE
    rw [createCollectionDetails, if_pos hE] at hd
    cases hd
  have hdd : d = buildDetails
      (sortEntries (combination.filter fun e => truthy e.2)) defs := by
    rw [createCollectionDetails, if_neg hne] at hd
    injection hd with h
    exact h.symm
  have hSperm : (sortEntries (combination.filter fun e => truthy e.2)).Perm
      (combination.filter fun e => truthy e.2) :=
    List.perm_insertionSort _ _
  have hSkeys : ∀ e ∈ sortEntries (combination.filter fun e => truthy e.2),
      e.1 ∈ PRODUCT_ATTRIBUTES :=
    fun e he => hkeys e (List.mem_of_mem_filter (hSperm.mem_iff.1 he))
  have hStruthy : ∀ e ∈ sortEntries (combination.filter fun e => truthy e.2),
      e.2 ≠ "" := by
    intro e he
    have := List.of_mem_filter (hSperm.mem_iff.1 he)
    simpa [truthy] using this
  have hSnodup : ((sortEntries
      (combination.filter fun e => truthy e.2)).map Prod.fst).Nodup :=
    (hSperm.map Prod.fst).nodup_iff.2
      (List.Nodup.sublist ((List.filter_sublist combination).map Prod.fst)
        hnodup)
  have hsome : ∀ e ∈ sortEntries (combination.filter fun e => truthy e.2),
      ruleForEntry defs e ≠ none := by
    intro e he
    have hk := hSkeys e he
    have hv := hStruthy e he
    have hmem : e ∈ combination :=
      List.mem_of_mem_filter (hSperm.mem_iff.1 he)
    simp [PRODUCT_ATTRIBUTES] at hk
    unfold ruleForEntry
    rcases hk with hk | hk | hk | hk | hk
    · obtain ⟨i, hi⟩ := Option.ne_none_iff_exists'.1
        (hmapped e hmem hv (Or.inl hk))
      obtain ⟨hi_ne, _⟩ := hwf.2.2 _ (lookupDef_mem hi)
      simp only at hi_ne
      rw [hk] at hi
      simp [hk, hi, truthy, hi_ne]
    · simp [hk]
    · simp [hk]
    · obtain ⟨i, hi⟩ := Option.ne_none_iff_exists'.1
        (hmapped e hmem hv (Or.inr (Or.inr hk)))
      obtain ⟨hi_ne, _⟩ := hwf.2.2 _ (lookupDef_mem hi)
      simp only at hi_ne
      rw [hk] at hi
      simp [hk, hi, truthy, hi_ne]
    · obtain ⟨i, hi⟩ := Option.ne_none_iff_exists'.1
        (hmapped e hmem hv (Or.inr (Or.inl hk)))
      obtain ⟨hi_ne, _⟩ := hwf.2.2 _ (lookupDef_mem hi)
      simp only at hi_ne
      rw [hk] at hi
      simp [hk, hi, truthy, hi_ne]
  have hparse : parseCollectionAttributes { rules := some d.rules } defs
      = (sortEntries (combination.filter fun e => truthy e.2)).foldl
          (fun a e => setAttr a e.1 e.2) {} := by
    rw [hdd]
    exact foldl_applyFlatRule_filterMap hwf _ {} hsome
  constructor
  · intro e he hv
    have heF : e ∈ combination.filter fun e => truthy e.2 :=
      List.mem_filter.2 ⟨he, by simp [truthy, hv]⟩
    have heS : e ∈ sortEntries (combination.filter fun e => truthy e.2) :=
      hSperm.mem_iff.2 heF
    rw [hparse, collAttr_foldl_setAttr _ {} e.1 hSkeys]
    have hrevnd : (((sortEntries
        (combination.filter fun e => truthy e.2)).reverse).map
          Prod.fst).Nodup := by
      rw [List.map_reverse]
      exact List.nodup_reverse.2 hSnodup
    rw [find?_key_unique _ hrevnd e (List.mem_reverse.2 heS)]
    rfl
  · intro k hkP hknone
    rw [hparse, collAttr_foldl_setAttr _ {} k hSkeys]
    have hfind : ((sortEntries
        (combination.filter fun e => truthy e.2)).reverse).find?
          (fun x => x.1 = k) = none := by
      rw [List.find?_eq_none]
      intro x hx hxk
      have hxS := List.mem_reverse.1 hx
      have hxF := hSperm.mem_iff.1 hxS
      have hxc : x ∈ combination := List.mem_of_mem_filter hxF
      have hxv : x.2 ≠ "" := by
        simpa [truthy] using List.of_mem_filter hxF
      have hx1 : x.1 = k := by simpa using hxk
      have hkv : (k, x.2) ∈ combination := by
        rw [← hx1]
        simpa using hxc
      exact hxv (hknone x.2 hkv)
    rw [hfind]
    exact collAttr_empty k

/-- C4 witness: the round trip at a concrete combination
`{product_type: Boom Lift, condition: Used}` and the map
`{condition ↦ 11}`. -/
theorem claim_C4_witness :
    ((∀ e ∈ rtCombo, e.1 ∈ PRODUCT_ATTRIBUTES)
      ∧ (rtCombo.map Prod.fst).Nodup
      ∧ DefsWellFormed rtDefs
      ∧ (∀ e ∈ rtCombo, e.2 ≠ "" →
          (e.1 = "condition" ∨ e.1 = "fuel_type" ∨ e.1 = "size_item") →
          lookupDef rtDefs e.1 ≠ none)
      ∧ createCollectionDetails rtCombo rtDefs
          = some ((createCollectionDetails rtCombo rtDefs).getD {}))
    ∧ ((∀ e ∈ rtCombo, e.2 ≠ "" →
        collAttr (parseCollectionAttributes
          { rules := some ((createCollectionDetails rtCombo rtDefs).getD
            {}).rules } rtDefs) e.1 = e.2)
      ∧ (∀ k ∈ PRODUCT_ATTRIBUTES, (∀ v, (k, v) ∈ rtCombo → v = "") →
        collAttr (parseCollectionAttributes
          { rules := some ((createCollectionDetails rtCombo rtDefs).getD
            {}).rules } rtDefs) k = "")) :=
  ⟨⟨by decide, by decide, by decide, by decide, by decide⟩,
    claim_C4 rtCombo rtDefs (by decide) (by decide) (by decide) (by decide)
      ((createCollectionDetails rtCombo rtDefs).getD {}) (by decide)⟩

end ShopBySpecs
